import Mathlib

/-!
Shallow embedding of the trebek trivia bot round engine (internal/game)
and its continuous-play scheduler (cmd/trebek), with proofs of the
specification's testable properties.

Modelling conventions: Go strings are lists of characters; Go's
rand.Intn stream is a list of pending draws, each reduced modulo the
bound; the buffer refills that the source launches in goroutines are
serialized at the points that spawn them, matching the mutex discipline
of the source (both refill paths run under bufferMu, StartRound under
the engine mutex); a Go runtime panic (rand.Intn(0), index out of
range) is modelled as the Option value none.  ASCII is covered exactly;
Go's Unicode tables for ToLower/TrimSpace are out of scope.
-/

namespace Trebek

/-- internal/question.Question: one trivia record, all six JSON fields. -/
structure Question where
  category : List Char
  question : List Char
  answer : List Char
  money : List Char
  date : List Char
  episode : Nat
deriving DecidableEq

/-- ASCII whitespace as trimmed by Go's strings.TrimSpace
(space, tab, newline, vertical tab, form feed, carriage return). -/
def isSpaceChar (c : Char) : Bool :=
  decide (c.toNat = 32 ∨ c.toNat = 9 ∨ c.toNat = 10 ∨
          c.toNat = 11 ∨ c.toNat = 12 ∨ c.toNat = 13)

/-- Membership in the character class a-zA-Z0-9; the source strips the
complement with the regex regNonAlphaNum. -/
def isAlphaNum (c : Char) : Bool :=
  decide ((97 ≤ c.toNat ∧ c.toNat ≤ 122) ∨
          (65 ≤ c.toNat ∧ c.toNat ≤ 90) ∨
          (48 ≤ c.toNat ∧ c.toNat ≤ 57))

/-- strings.ToLower on the ASCII range: map A-Z to a-z, leave the rest. -/
def goToLower (c : Char) : Char :=
  if 65 ≤ c.toNat ∧ c.toNat ≤ 90 then Char.ofNat (c.toNat + 32) else c

/-- strings.TrimSpace: drop whitespace from both ends. -/
def trimSpace (s : List Char) : List Char :=
  ((s.dropWhile isSpaceChar).reverse.dropWhile isSpaceChar).reverse

/-- game.normalizeAnswer: lowercase, trim surrounding space, then strip
every character outside a-zA-Z0-9 (regNonAlphaNum.ReplaceAllString). -/
def normalizeAnswer (s : List Char) : List Char :=
  (trimSpace (s.map goToLower)).filter isAlphaNum

/-- game.HintCost: points subtracted per hint (applied by the caller). -/
def HintCost : Nat := 50

/-- game.MaxHints: maximum hints per question. -/
def MaxHints : Nat := 3

/-- game.Game: the trivia game state.  The question source is the list
of questions it will still yield before io.EOF; rand is the stream of
pending rand.Intn draws; QuestionTimer is none when never armed,
some true while armed, some false once stopped. -/
structure GameState where
  questionSource : List Question
  questionBuffer : List Question
  CurrentQuestion : Option Question
  rand : List Nat
  hintCount : Nat
  hintMask : List Char
  IsPlaying : Bool
  GameChannel : List Char
  QuestionTimer : Option Bool
  nextVotes : List (List Char)
  NextVoteThreshold : Nat
deriving DecidableEq

/-- game.fillQuestionBufferUnlocked: pull from the source until the
buffer holds 3 questions or the source is exhausted.  Returns the
remaining source and the new buffer. -/
def fillQuestionBufferUnlocked : List Question → List Question →
    List Question × List Question
  | [], buf => ([], buf)
  | q :: rest, buf =>
    if buf.length < 3 then fillQuestionBufferUnlocked rest (buf ++ [q])
    else (q :: rest, buf)

/-- game.NewGame: empty round state, buffer filled once from the source,
skip threshold defaulted to 3. -/
def NewGame (qs : List Question) (rand : List Nat) (channel : List Char) :
    GameState :=
  let p := fillQuestionBufferUnlocked qs []
  { questionSource := p.1
    questionBuffer := p.2
    CurrentQuestion := none
    rand := rand
    hintCount := 0
    hintMask := []
    IsPlaying := false
    GameChannel := channel
    QuestionTimer := none
    nextVotes := []
    NextVoteThreshold := 3 }

/-- The second half of game.StartRound, applied to the source/buffer
pair p1 left after the synchronous refill check: if the buffer is still
empty report none; otherwise remove a uniformly random entry, install
it as the current question, and top the buffer up again (the source
does this last step in a goroutine serialized by bufferMu). -/
def startRoundPick (g : GameState) (p1 : List Question × List Question) :
    Option Question × GameState :=
  if h : p1.2.length = 0 then
    (none, { g with questionSource := p1.1, questionBuffer := p1.2 })
  else
    let idx := g.rand.headD 0 % p1.2.length
    let q := p1.2.get ⟨idx, Nat.mod_lt _ (Nat.pos_of_ne_zero h)⟩
    let p2 := fillQuestionBufferUnlocked p1.1 (p1.2.eraseIdx idx)
    (some q, { g with questionSource := p2.1, questionBuffer := p2.2,
                      CurrentQuestion := some q, rand := g.rand.tail })

/-- game.StartRound: when the buffer is empty perform the synchronous
refill first, then pick. -/
def StartRound (g : GameState) : Option Question × GameState :=
  startRoundPick g
    (if g.questionBuffer.length = 0 then
       fillQuestionBufferUnlocked g.questionSource g.questionBuffer
     else (g.questionSource, g.questionBuffer))

/-- game.CheckAnswer: false with no active question, otherwise equality
of the normalized submission and the normalized stored answer. -/
def CheckAnswer (g : GameState) (answer : List Char) : Bool :=
  match g.CurrentQuestion with
  | none => false
  | some q => normalizeAnswer answer == normalizeAnswer q.answer

/-- game.GetCurrentQuestion. -/
def GetCurrentQuestion (g : GameState) : Option Question :=
  g.CurrentQuestion

/-- game.ClearCurrentQuestion: drop the question, reset hint counter,
hint mask and skip votes, and stop the question timer if one exists. -/
def ClearCurrentQuestion (g : GameState) : GameState :=
  { g with CurrentQuestion := none
           hintCount := 0
           hintMask := []
           nextVotes := []
           QuestionTimer := match g.QuestionTimer with
                            | none => none
                            | some _ => some false }

/-- game.SetPlaying. -/
def SetPlaying (g : GameState) (playing : Bool) : GameState :=
  { g with IsPlaying := playing }

/-- game.GetPlaying. -/
def GetPlaying (g : GameState) : Bool :=
  g.IsPlaying

/-- The text component of game.GetHint's result: one constructor per
message the source can return, plus the rendered mask. -/
inductive HintText where
  | noActive
  | maxHints
  | noMore
  | masked (m : List Char)
deriving DecidableEq

/-- The reveal loop of game.GetHint: up to five random draws looking for
a still-masked position; each try consumes one draw.  none models the
index-out-of-range panic on a mask shorter than the answer. -/
def hintRevealLoop : Nat → List Nat → List Char → List Char →
    Option (List Nat × List Char × Bool)
  | 0, rand, mask, _ => some (rand, mask, false)
  | Nat.succ t, rand, mask, answer =>
    let idx := rand.headD 0 % answer.length
    if hm : idx < mask.length then
      if mask.get ⟨idx, hm⟩ = '_' then
        if ha : idx < answer.length then
          some (rand.tail, mask.set idx (answer.get ⟨idx, ha⟩), true)
        else none
      else hintRevealLoop t rand.tail mask answer
    else none

/-- The fallback of game.GetHint: reveal the first masked position.
Outer none models the panic when the answer is shorter than the mask;
inner none means nothing was left to reveal. -/
def revealFirstMasked : List Char → List Char → Option (Option (List Char))
  | [], _ => some none
  | c :: restMask, answer =>
    if c = '_' then
      match answer with
      | [] => none
      | a :: _ => some (some (a :: restMask))
    else
      match revealFirstMasked restMask answer.tail with
      | none => none
      | some none => some none
      | some (some m) => some (some (c :: m))

/-- Mask construction in game.GetHint: spaces pre-revealed, every other
character masked. -/
def buildHintMask (answer : List Char) : List Char :=
  answer.map (fun r => if r = ' ' then ' ' else '_')

/-- game.GetHint.  The result is none exactly when the Go code would
panic (rand.Intn(0) on an answer that trims to nothing, or an index out
of range against a stale mask); otherwise some (text, granted, state). -/
def GetHint (g : GameState) : Option ((HintText × Bool) × GameState) :=
  match g.CurrentQuestion with
  | none => some ((HintText.noActive, false), g)
  | some q =>
    if MaxHints ≤ g.hintCount then some ((HintText.maxHints, false), g)
    else
      let answer := trimSpace q.answer
      if answer.length = 0 then none
      else
        let mask0 := if g.hintMask.length = 0 then buildHintMask answer
                     else g.hintMask
        match hintRevealLoop 5 g.rand mask0 answer with
        | none => none
        | some (rand1, mask1, revealed) =>
          match (if revealed then some (some mask1)
                 else revealFirstMasked mask1 answer) with
          | none => none
          | some none =>
              some ((HintText.noMore, false),
                    { g with hintMask := mask1, rand := rand1 })
          | some (some mask2) =>
              some ((HintText.masked mask2, true),
                    { g with hintMask := mask2, rand := rand1,
                             hintCount := g.hintCount + 1 })

/-- game.AddNextVote: no-op without an active question; an existing
voter gets the unchanged tally; otherwise the vote is recorded and
skipNow reports whether the threshold was reached. -/
def AddNextVote (g : GameState) (user : List Char) :
    (Nat × Nat × Bool) × GameState :=
  match g.CurrentQuestion with
  | none => ((0, 0, false), g)
  | some _ =>
    if user ∈ g.nextVotes then
      ((g.nextVotes.length, g.NextVoteThreshold, false), g)
    else
      let votes := g.nextVotes ++ [user]
      if g.NextVoteThreshold ≤ votes.length then
        ((votes.length, g.NextVoteThreshold, true), { g with nextVotes := votes })
      else
        ((votes.length, g.NextVoteThreshold, false), { g with nextVotes := votes })

/-- All questions the engine can still hand out: buffer first, then the
unread tail of the source. -/
def totalQuestions (g : GameState) : List Question :=
  g.questionBuffer ++ g.questionSource

/-- n successive StartRound calls, collecting the outcomes. -/
def startRounds : Nat → GameState → List (Option Question) × GameState
  | 0, g => ([], g)
  | Nat.succ n, g =>
    let r := StartRound g
    let rest := startRounds n r.2
    (r.1 :: rest.1, rest.2)

/-- n successive GetHint calls, counting the granted hints; a panic
(none) ends the run. -/
def getHintRun : Nat → GameState → Nat
  | 0, _ => 0
  | Nat.succ n, g =>
    match GetHint g with
    | none => 0
    | some ((_, granted), g') =>
      (if granted then 1 else 0) + getHintRun n g'

/-- Outbound chat text produced while asking a question, one constructor
per message of cmd/trebek's askQuestion. -/
inductive BotMsg where
  | questionMsg (category prompt : List Char)
  | noMoreQuestions
deriving DecidableEq

/-- cmd/trebek askQuestion: start a round; on none announce exhaustion
and turn continuous play off; on success announce the question and arm
the 30-second per-question timer. -/
def askQuestion (g : GameState) : GameState × Option Question × BotMsg :=
  let r := StartRound g
  match r.1 with
  | none => (SetPlaying r.2 false, none, BotMsg.noMoreQuestions)
  | some q => ({ r.2 with QuestionTimer := some true }, some q,
               BotMsg.questionMsg q.category q.question)

/-- The events cmd/trebek's gameLoop selects on: the next-question timer
firing, a round-ended signal on AnswerGiven, and the stop channel. -/
inductive SchedEvent where
  | timerFires
  | roundEnded (answered : Bool)
  | stop
deriving DecidableEq

/-- The scheduler's state: the game, the next-question timer (some d =
armed with delay d time-units, none = disarmed), and whether the loop
has exited. -/
structure SchedState where
  game : GameState
  nextTimer : Option Nat
  stopped : Bool
deriving DecidableEq

/-- The short pause before the next question (nextQuestionDelay,
5 time-units in Go's seconds). -/
def nextQuestionDelay : Nat := 5

/-- One iteration of cmd/trebek's gameLoop select: returns the new
scheduler state and the question asked in this step, if any.  A timer
that fires and is not Reset is left disarmed. -/
def gameLoopStep (s : SchedState) (e : SchedEvent) :
    SchedState × Option Question :=
  if s.stopped then (s, none)
  else
    match e with
    | SchedEvent.timerFires =>
      if GetPlaying s.game then
        let r := askQuestion s.game
        ({ s with game := r.1, nextTimer := some 45 }, r.2.1)
      else
        ({ s with nextTimer := none }, none)
    | SchedEvent.roundEnded answered =>
      if GetPlaying s.game then
        if answered then ({ s with nextTimer := some nextQuestionDelay }, none)
        else ({ s with nextTimer := some nextQuestionDelay }, none)
      else (s, none)
    | SchedEvent.stop =>
      ({ s with stopped := true, nextTimer := none }, none)

/-- Run the scheduler over a list of events, collecting every question
it asks. -/
def gameLoopRun (s : SchedState) : List SchedEvent → SchedState × List Question
  | [] => (s, [])
  | e :: es =>
    let r := gameLoopStep s e
    let rest := gameLoopRun r.1 es
    (rest.1, match r.2 with
             | none => rest.2
             | some q => q :: rest.2)

/-- Four pairwise-distinct sample questions for concrete scenarios. -/
def sampleA : Question := ⟨['c'], ['q'], ['a'], [], [], 0⟩

def sampleB : Question := ⟨['c'], ['q'], ['b'], [], [], 0⟩

def sampleC : Question := ⟨['c'], ['q'], ['c'], [], [], 0⟩

def sampleD : Question := ⟨['c'], ['q'], ['d'], [], [], 0⟩

/-- A game with nothing active and nothing buffered. -/
def idleGame : GameState :=
  { questionSource := []
    questionBuffer := []
    CurrentQuestion := none
    rand := []
    hintCount := 0
    hintMask := []
    IsPlaying := false
    GameChannel := []
    QuestionTimer := none
    nextVotes := []
    NextVoteThreshold := 3 }

/-- The question of the spec's Paris scenario. -/
def parisQ : Question := ⟨['g'], ['q'], ['P', 'a', 'r', 'i', 's'], [], [], 0⟩

/-- A game whose active answer is Paris. -/
def parisGame : GameState := { idleGame with CurrentQuestion := some parisQ }

/-- A mid-round state with a hint taken and a skip vote cast, and a
second question waiting in the buffer: the replace-case input. -/
def replaceGame : GameState :=
  { idleGame with questionBuffer := [sampleB]
                  CurrentQuestion := some sampleA
                  rand := [0]
                  hintCount := 1
                  hintMask := ['_']
                  nextVotes := [['u']] }

/-- An active round whose hint counter already reached MaxHints. -/
def maxedGame : GameState :=
  { idleGame with CurrentQuestion := some sampleA, hintCount := 3 }

/-- An active round with skip threshold 2 and no votes yet. -/
def voteGame : GameState :=
  { idleGame with CurrentQuestion := some sampleA, NextVoteThreshold := 2 }

/-- A cleared game with one buffered question: a fresh-start input. -/
def freshGame : GameState := { idleGame with questionBuffer := [sampleA] }

/-- The state freshGame reaches after one StartRound. -/
def freshAfter : GameState := { idleGame with CurrentQuestion := some sampleA }

/-- A question whose stored answer holds no letter or digit. -/
def punctQ : Question := ⟨['g'], ['q'], ['-', '!'], [], [], 0⟩

/-- A game whose active answer normalizes to the empty string. -/
def punctGame : GameState := { idleGame with CurrentQuestion := some punctQ }

/-- A scheduler state in continuous play with the source exhausted. -/
def exhaustSched : SchedState :=
  { game := { idleGame with IsPlaying := true }
    nextTimer := some 45
    stopped := false }

/-- A scheduler state whose game is not in continuous play. -/
def idleSched : SchedState :=
  { game := idleGame, nextTimer := none, stopped := false }

/-- Whitespace characters are outside the a-zA-Z0-9 class. -/
theorem space_not_alphaNum {c : Char} (h : isSpaceChar c = true) :
    isAlphaNum c = false := by
  simp only [isSpaceChar, decide_eq_true_eq] at h
  simp only [isAlphaNum, decide_eq_false_iff_not]
  omega

/-- Dropping a whitespace prefix does not change the alphanumeric
content. -/
theorem filter_dropWhile_space (l : List Char) :
    (l.dropWhile isSpaceChar).filter isAlphaNum = l.filter isAlphaNum := by
  induction l with
  | nil => rfl
  | cons c t ih =>
    by_cases hc : isSpaceChar c = true
    · rw [List.dropWhile_cons_of_pos hc, ih]
      simp [List.filter_cons, space_not_alphaNum hc]
    · rw [List.dropWhile_cons_of_neg hc]

/-- Filtering commutes with list reversal. -/
theorem filter_reverse_eq (p : Char → Bool) (l : List Char) :
    l.reverse.filter p = (l.filter p).reverse := by
  induction l with
  | nil => rfl
  | cons c t ih =>
    by_cases hc : p c = true <;>
      simp [List.filter_cons, List.filter_append, hc, ih]

/-- Trimming surrounding whitespace does not change the alphanumeric
content. -/
theorem filter_trimSpace (l : List Char) :
    (trimSpace l).filter isAlphaNum = l.filter isAlphaNum := by
  unfold trimSpace
  rw [filter_reverse_eq, filter_dropWhile_space, filter_reverse_eq,
      List.reverse_reverse, filter_dropWhile_space]

/-- The normalized form is exactly the lowercased letter-and-digit
content: the TrimSpace pass is absorbed by the regex strip. -/
theorem normalizeAnswer_eq_filter (s : List Char) :
    normalizeAnswer s = (s.map goToLower).filter isAlphaNum := by
  unfold normalizeAnswer
  rw [filter_trimSpace]

/-- Lowercasing fixes every character outside a-zA-Z0-9. -/
theorem goToLower_not_alphaNum {c : Char} (h : isAlphaNum c = false) :
    goToLower c = c := by
  simp only [isAlphaNum, decide_eq_false_iff_not] at h
  unfold goToLower
  split
  · exfalso; omega
  · rfl

/-- A string without letters or digits normalizes to the empty string. -/
theorem normalizeAnswer_nil {s : List Char}
    (h : ∀ c ∈ s, isAlphaNum c = false) : normalizeAnswer s = [] := by
  rw [normalizeAnswer_eq_filter]
  rw [List.filter_eq_nil_iff]
  intro c hc
  obtain ⟨a, ha, rfl⟩ := List.mem_map.mp hc
  rw [goToLower_not_alphaNum (h a ha)]
  simp [h a ha]

/-- C2: with a Question active, CheckAnswer accepts exactly the
submissions whose normalized form (lowercase, trim, strip every
character outside a-zA-Z0-9) equals the normalized stored answer; in
particular every variant agreeing with the answer on its lowercased
letter-and-digit content — i.e. differing only in casing, surrounding
whitespace, or punctuation — is accepted. -/
theorem checkAnswer_normalizes (g : GameState) (q : Question) (v : List Char)
    (hq : g.CurrentQuestion = some q) :
    (CheckAnswer g v = true ↔ normalizeAnswer v = normalizeAnswer q.answer) ∧
    ((v.map goToLower).filter isAlphaNum =
        (q.answer.map goToLower).filter isAlphaNum →
      CheckAnswer g v = true) := by
  constructor
  · simp [CheckAnswer, hq]
  · intro hv
    simp [CheckAnswer, hq, normalizeAnswer_eq_filter, hv]

/-- C2 witness: with active answer Paris, the submission with
surrounding spaces, lowercase letters and a hyphen is accepted. -/
theorem checkAnswer_normalizes_witness :
    parisGame.CurrentQuestion = some parisQ ∧
    CheckAnswer parisGame [' ', 'p', 'a', '-', 'r', 'i', 's', ' '] = true :=
  ⟨rfl, (checkAnswer_normalizes parisGame parisQ
    [' ', 'p', 'a', '-', 'r', 'i', 's', ' '] rfl).2 (by decide)⟩

/-- C10: when the stored answer has no character in a-zA-Z0-9, every
submission without such characters — the empty one included — is
accepted, both sides normalizing to the empty string. -/
theorem checkAnswer_empty_forms (g : GameState) (q : Question)
    (s : List Char) (hq : g.CurrentQuestion = some q)
    (ha : ∀ c ∈ q.answer, isAlphaNum c = false)
    (hs : ∀ c ∈ s, isAlphaNum c = false) :
    CheckAnswer g s = true := by
  simp [CheckAnswer, hq, normalizeAnswer_nil ha, normalizeAnswer_nil hs]

/-- C10 witness: an answer of punctuation only matches the empty
submission. -/
theorem checkAnswer_empty_forms_witness :
    punctGame.CurrentQuestion = some punctQ ∧
    CheckAnswer punctGame [] = true :=
  ⟨rfl, checkAnswer_empty_forms punctGame punctQ [] rfl
    (by decide) (by decide)⟩

/-- C9: with no active Question, CheckAnswer returns false for every
submission, GetHint returns granted=false with the no-active-question
message, and AddNextVote returns (0, 0, false) for every user, each
leaving the state unchanged. -/
theorem noActive_defined_responses (g : GameState) (v u : List Char)
    (hq : g.CurrentQuestion = none) :
    CheckAnswer g v = false ∧
    GetHint g = some ((HintText.noActive, false), g) ∧
    AddNextVote g u = ((0, 0, false), g) := by
  refine ⟨?_, ?_, ?_⟩ <;> simp [CheckAnswer, GetHint, AddNextVote, hq]

/-- C9 witness: the defined negative responses on the idle game. -/
theorem noActive_defined_responses_witness :
    idleGame.CurrentQuestion = none ∧
    CheckAnswer idleGame ['x'] = false ∧
    GetHint idleGame = some ((HintText.noActive, false), idleGame) ∧
    AddNextVote idleGame ['u'] = ((0, 0, false), idleGame) :=
  ⟨rfl, noActive_defined_responses idleGame ['x'] ['u'] rfl⟩

/-- C8: ClearCurrentQuestion is unconditional: afterwards no question is
active, the hint counter is 0, the hint mask and skip-vote set are
empty (so a fresh AddNextVote sees no prior votes), and the
per-question timer is no longer armed. -/
theorem clearRound_resets (g : GameState) :
    GetCurrentQuestion (ClearCurrentQuestion g) = none ∧
    (ClearCurrentQuestion g).hintCount = 0 ∧
    (ClearCurrentQuestion g).hintMask = [] ∧
    (ClearCurrentQuestion g).nextVotes = [] ∧
    (ClearCurrentQuestion g).QuestionTimer ≠ some true ∧
    (∀ u, AddNextVote (ClearCurrentQuestion g) u =
      ((0, 0, false), ClearCurrentQuestion g)) := by
  refine ⟨rfl, rfl, rfl, rfl, ?_, ?_⟩
  · simp only [ClearCurrentQuestion]
    cases g.QuestionTimer <;> simp
  · intro u
    simp [AddNextVote, ClearCurrentQuestion]

/-- C4: with a Question active, a user who already voted gets the
unchanged tally and state with skipNow=false; a new vote that reaches
the threshold returns skipNow=true while changing nothing but the vote
set (the engine clears no round state); and the threshold-2 scenario
yields (1,2,false) then (2,2,true). -/
theorem addSkipVote_dedup_quorum (g : GameState) (q : Question)
    (hq : g.CurrentQuestion = some q) :
    (∀ u, u ∈ g.nextVotes →
      AddNextVote g u = ((g.nextVotes.length, g.NextVoteThreshold, false), g)) ∧
    (∀ u, u ∉ g.nextVotes → g.NextVoteThreshold ≤ g.nextVotes.length + 1 →
      AddNextVote g u = ((g.nextVotes.length + 1, g.NextVoteThreshold, true),
        { g with nextVotes := g.nextVotes ++ [u] })) ∧
    (∀ u1 u2, u1 ≠ u2 → g.nextVotes = [] → g.NextVoteThreshold = 2 →
      AddNextVote g u1 = ((1, 2, false), { g with nextVotes := [u1] }) ∧
      AddNextVote { g with nextVotes := [u1] } u2 =
        ((2, 2, true), { g with nextVotes := [u1, u2] })) := by
  refine ⟨?_, ?_, ?_⟩
  · intro u hu
    simp [AddNextVote, hq, hu]
  · intro u hu hthr
    simp [AddNextVote, hq, hu, hthr]
  · intro u1 u2 hne hv hthr
    constructor
    · simp [AddNextVote, hq, hv, hthr]
    · simp [AddNextVote, hq, hv, hthr, hne.symm]

/-- GetHint changes the hint counter by exactly the granted flag, and
grants only below MaxHints. -/
theorem getHint_count_spec (g : GameState) (t : HintText) (gr : Bool)
    (g' : GameState) (h : GetHint g = some ((t, gr), g')) :
    g'.hintCount = g.hintCount + (if gr then 1 else 0) ∧
    (gr = true → g.hintCount < MaxHints) := by
  simp only [GetHint] at h
  repeat' split at h
  all_goals
    first
      | (exfalso; simp at h; done)
      | (simp only [Option.some.injEq, Prod.mk.injEq] at h
         obtain ⟨⟨ht, hgr⟩, hg⟩ := h
         subst hgr
         subst hg
         refine ⟨by simp, ?_⟩
         intro hgr
         simp only [MaxHints] at *
         first
           | omega
           | exact absurd hgr (by simp))

/-- Over any sequence of GetHint calls, the number of granted hints is
bounded by the room left under MaxHints. -/
theorem getHintRun_le (n : Nat) : ∀ g : GameState,
    getHintRun n g ≤ MaxHints - g.hintCount := by
  induction n with
  | zero => intro g; simp [getHintRun]
  | succ n ih =>
    intro g
    unfold getHintRun
    cases hgh : GetHint g with
    | none => simp
    | some r =>
      obtain ⟨⟨t, gr⟩, g'⟩ := r
      obtain ⟨hcnt, hlt⟩ := getHint_count_spec g t gr g' hgh
      have h2 := ih g'
      simp only [MaxHints] at *
      cases gr
      · simp at hcnt ⊢
        omega
      · have h3 := hlt rfl
        simp at hcnt ⊢
        omega

/-- C3: for an active question, once the hint counter has reached
MaxHints every GetHint call returns granted=false with the
maximum-hints message and leaves the state (mask and counter)
untouched; the counter increments exactly when a reveal is granted,
grants happen only below MaxHints, and any run of calls starting at
counter 0 yields at most MaxHints grants. -/
theorem getHint_max_hints (g : GameState) (q : Question) (n : Nat)
    (hq : g.CurrentQuestion = some q) :
    (MaxHints ≤ g.hintCount →
      GetHint g = some ((HintText.maxHints, false), g)) ∧
    (∀ t gr g', GetHint g = some ((t, gr), g') →
      g'.hintCount = g.hintCount + (if gr then 1 else 0) ∧
      (gr = true → g.hintCount < MaxHints)) ∧
    (g.hintCount = 0 → getHintRun n g ≤ MaxHints) := by
  refine ⟨?_, ?_, ?_⟩
  · intro hc
    simp [GetHint, hq, hc]
  · intro t gr g' h
    exact getHint_count_spec g t gr g' h
  · intro h0
    have := getHintRun_le n g
    omega

/-- C3 witness: a fourth hint on a question with three hints taken is
refused and changes nothing. -/
theorem getHint_max_hints_witness :
    maxedGame.CurrentQuestion = some sampleA ∧
    MaxHints ≤ maxedGame.hintCount ∧
    GetHint maxedGame = some ((HintText.maxHints, false), maxedGame) :=
  ⟨rfl, by decide, (getHint_max_hints maxedGame sampleA 0 rfl).1 (by decide)⟩

/-- C1 counterexample: StartRound called while a round with a used hint
and a cast vote is active succeeds and installs the buffered question,
yet the hint counter, hint mask and skip-vote set are not fresh. -/
theorem startRound_replace_stale :
    (StartRound replaceGame).1 = some sampleB ∧
    ¬((StartRound replaceGame).2.hintCount = 0 ∧
      (StartRound replaceGame).2.hintMask = [] ∧
      (StartRound replaceGame).2.nextVotes = []) := by decide

/-- C1 amended: a successful StartRound installs the returned question
as the active one, but leaves the hint counter, hint mask and skip-vote
set exactly as they were; they are fresh after the call precisely when
they were already clear before it (as on every path through
ClearCurrentQuestion), not in the replace case. -/
theorem startRound_installs (g : GameState) (q : Question) (g' : GameState)
    (h : StartRound g = (some q, g')) :
    g'.CurrentQuestion = some q ∧
    g'.hintCount = g.hintCount ∧
    g'.hintMask = g.hintMask ∧
    g'.nextVotes = g.nextVotes ∧
    ((g.hintCount = 0 ∧ g.hintMask = [] ∧ g.nextVotes = []) →
      (g'.hintCount = 0 ∧ g'.hintMask = [] ∧ g'.nextVotes = [])) := by
  simp only [StartRound, startRoundPick] at h
  repeat' split at h
  all_goals
    first
      | (exfalso; simp at h; done)
      | (simp only [Prod.mk.injEq, Option.some.injEq] at h
         obtain ⟨h1, h2⟩ := h
         subst h2
         exact ⟨by rw [h1], rfl, rfl, rfl, fun hf => hf⟩)

/-- C1 amended witness: starting a round from a cleared state installs
the question and the hint state is fresh. -/
theorem startRound_installs_witness :
    StartRound freshGame = (some sampleA, freshAfter) ∧
    freshAfter.CurrentQuestion = some sampleA ∧
    freshAfter.hintCount = freshGame.hintCount ∧
    freshAfter.hintMask = freshGame.hintMask ∧
    freshAfter.nextVotes = freshGame.nextVotes := by
  have h : StartRound freshGame = (some sampleA, freshAfter) := by decide
  have h2 := startRound_installs freshGame sampleA freshAfter h
  exact ⟨h, h2.1, h2.2.1, h2.2.2.1, h2.2.2.2.1⟩

/-- C4 witness: threshold 2, two distinct users voting in turn. -/
theorem addSkipVote_dedup_quorum_witness :
    voteGame.CurrentQuestion = some sampleA ∧
    AddNextVote voteGame ['x'] =
      ((1, 2, false), { voteGame with nextVotes := [['x']] }) ∧
    AddNextVote { voteGame with nextVotes := [['x']] } ['y'] =
      ((2, 2, true), { voteGame with nextVotes := [['x'], ['y']] }) :=
  ⟨rfl, (addSkipVote_dedup_quorum voteGame sampleA rfl).2.2
    ['x'] ['y'] (by decide) rfl rfl⟩

/-- The refill only moves a prefix of the source to the back of the
buffer: the concatenation buffer-then-source is preserved. -/
theorem fill_append (src : List Question) : ∀ buf : List Question,
    (fillQuestionBufferUnlocked src buf).2 ++
      (fillQuestionBufferUnlocked src buf).1 = buf ++ src := by
  induction src with
  | nil =>
    intro buf
    simp [fillQuestionBufferUnlocked]
  | cons q rest ih =>
    intro buf
    simp only [fillQuestionBufferUnlocked]
    split
    · rw [ih]
      simp
    · rfl

/-- The refill leaves an empty buffer only when it had nothing to move:
both the buffer and the source were empty. -/
theorem fill_nil (src : List Question) : ∀ buf : List Question,
    (fillQuestionBufferUnlocked src buf).2 = [] → buf = [] ∧ src = [] := by
  induction src with
  | nil =>
    intro buf h
    simp [fillQuestionBufferUnlocked] at h
    exact ⟨h, rfl⟩
  | cons q rest ih =>
    intro buf
    simp only [fillQuestionBufferUnlocked]
    split
    · intro h
      have h2 := ih (buf ++ [q]) h
      simp at h2
    · intro h
      rename_i hlen
      simp only [] at h
      exfalso
      rw [h] at hlen
      simp at hlen

/-- Removing the element at a valid index is, up to permutation,
removing one occurrence of that element. -/
theorem get_cons_eraseIdx_perm {α : Type} (l : List α) :
    ∀ (i : Nat) (h : i < l.length),
      l.Perm (l.get ⟨i, h⟩ :: l.eraseIdx i) := by
  induction l with
  | nil =>
    intro i h
    simp at h
  | cons a t ih =>
    intro i h
    cases i with
    | zero => simp [List.eraseIdx]
    | succ j =>
      have hj : j < t.length := by simpa using h
      simp only [List.get_cons_succ, List.eraseIdx_cons_succ]
      exact ((ih j hj).cons a).trans (List.Perm.swap _ a _)

/-- With nothing to hand out, StartRound reports none and the engine
still has nothing. -/
theorem startRound_empty (g : GameState) (h : totalQuestions g = []) :
    (StartRound g).1 = none ∧ totalQuestions (StartRound g).2 = [] := by
  simp only [totalQuestions] at h
  have hb : g.questionBuffer = [] := (List.append_eq_nil.mp h).1
  have hs : g.questionSource = [] := (List.append_eq_nil.mp h).2
  constructor <;>
    simp [StartRound, startRoundPick, totalQuestions, hb, hs,
          fillQuestionBufferUnlocked]

/-- Picking from a nonempty buffer returns some question and, up to
permutation, removes exactly that question from what the engine can
still hand out. -/
theorem startRoundPick_spec (g : GameState) (src1 buf1 : List Question)
    (hne : buf1 ≠ []) :
    ∃ q, (startRoundPick g (src1, buf1)).1 = some q ∧
      (buf1 ++ src1).Perm (q :: totalQuestions (startRoundPick g (src1, buf1)).2) ∧
      (startRoundPick g (src1, buf1)).2.CurrentQuestion = some q := by
  have hlen : ¬ buf1.length = 0 := by simpa using hne
  simp only [startRoundPick]
  rw [dif_neg hlen]
  refine ⟨_, rfl, ?_, rfl⟩
  have hlt : g.rand.headD 0 % buf1.length < buf1.length :=
    Nat.mod_lt _ (Nat.pos_of_ne_zero hlen)
  have hp := (get_cons_eraseIdx_perm buf1 _ hlt).append_right src1
  rw [List.cons_append] at hp
  simp only [totalQuestions]
  rw [fill_append]
  exact hp

/-- StartRound with anything to hand out returns some question and, up
to permutation, removes exactly that question. -/
theorem startRound_take (g : GameState) (h : totalQuestions g ≠ []) :
    ∃ q, (StartRound g).1 = some q ∧
      (totalQuestions g).Perm (q :: totalQuestions (StartRound g).2) ∧
      (StartRound g).2.CurrentQuestion = some q := by
  by_cases hb : g.questionBuffer.length = 0
  · have hb' : g.questionBuffer = [] := List.length_eq_zero.mp hb
    have hsrc : g.questionSource ≠ [] := by
      intro hs
      exact h (by simp [totalQuestions, hb', hs])
    rcases hF : fillQuestionBufferUnlocked g.questionSource g.questionBuffer
      with ⟨src1, buf1⟩
    have hSR : StartRound g = startRoundPick g (src1, buf1) := by
      simp only [StartRound]
      rw [if_pos hb, hF]
    have hne : buf1 ≠ [] := by
      intro hnil
      obtain ⟨hb2, hs2⟩ := fill_nil g.questionSource g.questionBuffer
        (by rw [hF]; exact hnil)
      exact hsrc hs2
    have hkey : buf1 ++ src1 = totalQuestions g := by
      have h2 := fill_append g.questionSource g.questionBuffer
      rw [hF] at h2
      unfold totalQuestions
      exact h2
    obtain ⟨q, h1, h2, h3⟩ := startRoundPick_spec g src1 buf1 hne
    rw [hSR, ← hkey]
    exact ⟨q, h1, h2, h3⟩
  · have hne : g.questionBuffer ≠ [] := by
      intro hnil
      exact hb (by rw [hnil]; rfl)
    have hSR : StartRound g =
        startRoundPick g (g.questionSource, g.questionBuffer) := by
      simp only [StartRound]
      rw [if_neg hb]
    obtain ⟨q, h1, h2, h3⟩ := startRoundPick_spec g g.questionSource
      g.questionBuffer hne
    rw [hSR]
    exact ⟨q, h1, h2, h3⟩

/-- Over n+1 rounds from a state with n questions left, every call but
the last succeeds, the last reports none, and the returned questions
are a permutation of what was left. -/
theorem startRounds_all (n : Nat) : ∀ g : GameState,
    (totalQuestions g).length = n →
      ∃ l : List Question,
        (startRounds (n + 1) g).1 = l.map some ++ [none] ∧
        (totalQuestions g).Perm l := by
  induction n with
  | zero =>
    intro g hg
    have htot : totalQuestions g = [] := List.length_eq_zero.mp hg
    obtain ⟨h1, _⟩ := startRound_empty g htot
    refine ⟨[], ?_, by simp [htot]⟩
    simp [startRounds, h1]
  | succ k ih =>
    intro g hg
    have htot : totalQuestions g ≠ [] := by
      intro hh
      rw [hh] at hg
      simp at hg
    obtain ⟨q, hq, hperm, _⟩ := startRound_take g htot
    have hlen : (totalQuestions (StartRound g).2).length = k := by
      have h2 := hperm.length_eq
      rw [hg] at h2
      simp at h2
      omega
    obtain ⟨l1, hl1, hp1⟩ := ih (StartRound g).2 hlen
    refine ⟨q :: l1, ?_, hperm.trans (hp1.cons q)⟩
    show (StartRound g).1 :: (startRounds (k + 1) (StartRound g).2).1 =
      List.map some (q :: l1) ++ [none]
    rw [hq, hl1]
    rfl

/-- C5: from a fresh game over a source yielding exactly the four
pairwise-distinct questions A,B,C,D (buffer target 3), four successive
StartRound calls return four pairwise-distinct questions — a
permutation of A,B,C,D — and the fifth returns none; moreover whenever
the buffer is empty but the source is not, StartRound refills
synchronously and still returns a question rather than none. -/
theorem startRound_buffer_scenario :
    (∀ A B C D : Question, ∀ rand : List Nat, ∀ ch : List Char,
      [A, B, C, D].Pairwise (· ≠ ·) →
      ∃ l : List Question,
        (startRounds 5 (NewGame [A, B, C, D] rand ch)).1 =
          l.map some ++ [none] ∧
        l.Perm [A, B, C, D] ∧ l.Pairwise (· ≠ ·)) ∧
    (∀ g : GameState, g.questionBuffer = [] → g.questionSource ≠ [] →
      (StartRound g).1.isSome = true) := by
  constructor
  · intro A B C D rand ch hpw
    have htot : totalQuestions (NewGame [A, B, C, D] rand ch) =
        [A, B, C, D] := by
      unfold totalQuestions NewGame
      exact fill_append [A, B, C, D] []
    obtain ⟨l, hl, hperm⟩ := startRounds_all 4 (NewGame [A, B, C, D] rand ch)
      (by rw [htot]; rfl)
    rw [htot] at hperm
    refine ⟨l, hl, hperm.symm, ?_⟩
    exact (List.Perm.pairwise_iff
      (fun {a b} (hab : a ≠ b) => hab.symm) hperm).mp hpw
  · intro g hb hs
    have htot : totalQuestions g ≠ [] := by
      simp [totalQuestions, hb, hs]
    obtain ⟨q, hq, _, _⟩ := startRound_take g htot
    rw [hq]
    rfl

/-- C5 witness: the concrete four-question scenario, and a one-question
source with an empty buffer served through the synchronous refill. -/
theorem startRound_buffer_scenario_witness :
    ([sampleA, sampleB, sampleC, sampleD].Pairwise (· ≠ ·) ∧
      ∃ l : List Question,
        (startRounds 5
          (NewGame [sampleA, sampleB, sampleC, sampleD] [0, 0, 0, 0, 0] [])).1 =
          l.map some ++ [none] ∧
        l.Perm [sampleA, sampleB, sampleC, sampleD] ∧ l.Pairwise (· ≠ ·)) ∧
    (StartRound { idleGame with questionSource := [sampleA] }).1.isSome = true :=
  ⟨⟨by decide, startRound_buffer_scenario.1 sampleA sampleB sampleC sampleD
      [0, 0, 0, 0, 0] [] (by decide)⟩,
    startRound_buffer_scenario.2 { idleGame with questionSource := [sampleA] }
      rfl (by decide)⟩

/-- A scheduler step on a game out of continuous play asks nothing and
leaves the game out of continuous play. -/
theorem gameLoopStep_not_playing (s : SchedState) (e : SchedEvent)
    (h : s.game.IsPlaying = false) :
    (gameLoopStep s e).2 = none ∧
    (gameLoopStep s e).1.game.IsPlaying = false := by
  unfold gameLoopStep
  by_cases hst : s.stopped
  · simp [hst, h]
  · cases e <;> simp [hst, h, GetPlaying]

/-- Once the game is out of continuous play, no run of scheduler events
ever asks a question. -/
theorem gameLoopRun_not_playing (es : List SchedEvent) : ∀ s : SchedState,
    s.game.IsPlaying = false → (gameLoopRun s es).2 = [] := by
  induction es with
  | nil =>
    intro s h
    rfl
  | cons e es ih =>
    intro s h
    obtain ⟨h1, h2⟩ := gameLoopStep_not_playing s e h
    simp [gameLoopRun, h1, ih _ h2]

/-- C6: when the next-question timer fires with the source exhausted,
StartRound returns none, askQuestion surfaces this as the normal
no-more-questions message (no question, not an error) and disables
PlayMode; the step asks nothing, and no later run of scheduler events
ever asks a question again — the engine is left idle. -/
theorem scheduler_exhaustion (s : SchedState)
    (hst : s.stopped = false) (hp : s.game.IsPlaying = true)
    (hb : s.game.questionBuffer = []) (hs : s.game.questionSource = []) :
    (StartRound s.game).1 = none ∧
    (askQuestion s.game).2.1 = none ∧
    (askQuestion s.game).2.2 = BotMsg.noMoreQuestions ∧
    (askQuestion s.game).1.IsPlaying = false ∧
    (gameLoopStep s SchedEvent.timerFires).2 = none ∧
    (gameLoopStep s SchedEvent.timerFires).1.game.IsPlaying = false ∧
    (∀ es, (gameLoopRun (gameLoopStep s SchedEvent.timerFires).1 es).2 = []) := by
  have htot : totalQuestions s.game = [] := by
    simp [totalQuestions, hb, hs]
  obtain ⟨h1, _⟩ := startRound_empty s.game htot
  have hask1 : (askQuestion s.game).2.1 = none := by
    simp [askQuestion, h1]
  have hask2 : (askQuestion s.game).2.2 = BotMsg.noMoreQuestions := by
    simp [askQuestion, h1]
  have hask3 : (askQuestion s.game).1.IsPlaying = false := by
    simp [askQuestion, h1, SetPlaying]
  have hstep1 : (gameLoopStep s SchedEvent.timerFires).2 = none := by
    simp [gameLoopStep, hst, hp, GetPlaying, hask1]
  have hstep2 :
      (gameLoopStep s SchedEvent.timerFires).1.game.IsPlaying = false := by
    simp [gameLoopStep, hst, hp, GetPlaying, hask3]
  exact ⟨h1, hask1, hask2, hask3, hstep1, hstep2,
    fun es => gameLoopRun_not_playing es _ hstep2⟩

/-- C6 witness: the exhausted playing scheduler state. -/
theorem scheduler_exhaustion_witness :
    exhaustSched.stopped = false ∧
    exhaustSched.game.IsPlaying = true ∧
    (StartRound exhaustSched.game).1 = none ∧
    (askQuestion exhaustSched.game).2.2 = BotMsg.noMoreQuestions ∧
    (gameLoopStep exhaustSched SchedEvent.timerFires).1.game.IsPlaying =
      false := by
  have h := scheduler_exhaustion exhaustSched rfl rfl rfl rfl
  exact ⟨rfl, rfl, h.1, h.2.2.1, h.2.2.2.2.2.1⟩

/-- C7 counterexample: a round-ended event processed while PlayMode is
off does not re-arm the next-question timer at all, so not every
round-ended event re-arms it for the short delay. -/
theorem roundEnded_no_rearm_cex :
    (gameLoopStep idleSched (SchedEvent.roundEnded true)).1.nextTimer = none ∧
    ¬(gameLoopStep idleSched (SchedEvent.roundEnded true)).1.nextTimer =
      some nextQuestionDelay := by decide

/-- C7 amended: while the loop is live and PlayMode is on, every
round-ended event re-arms the next-question timer for the same short
fixed delay of 5 time-units whether the round was answered or not
(and asks nothing itself), and every timer firing asks a new question
(the step returns exactly what StartRound yields) and then re-arms the
timer for the longer fixed delay of 45 time-units. -/
theorem scheduler_rearm (s : SchedState) (hst : s.stopped = false)
    (hp : s.game.IsPlaying = true) :
    (∀ b, (gameLoopStep s (SchedEvent.roundEnded b)).1.nextTimer =
        some nextQuestionDelay ∧
      (gameLoopStep s (SchedEvent.roundEnded b)).2 = none) ∧
    (gameLoopStep s SchedEvent.timerFires).1.nextTimer = some 45 ∧
    (gameLoopStep s SchedEvent.timerFires).2 = (StartRound s.game).1 := by
  refine ⟨?_, ?_, ?_⟩
  · intro b
    cases b <;> simp [gameLoopStep, hst, hp, GetPlaying]
  · simp [gameLoopStep, hst, hp, GetPlaying]
  · simp only [gameLoopStep, hst, hp, GetPlaying]
    cases hsr : (StartRound s.game).1 with
    | none => simp [askQuestion, hsr]
    | some q => simp [askQuestion, hsr]

/-- C7 amended witness: the live playing scheduler state. -/
theorem scheduler_rearm_witness :
    exhaustSched.stopped = false ∧
    exhaustSched.game.IsPlaying = true ∧
    (gameLoopStep exhaustSched (SchedEvent.roundEnded true)).1.nextTimer =
      some nextQuestionDelay ∧
    (gameLoopStep exhaustSched (SchedEvent.roundEnded false)).1.nextTimer =
      some nextQuestionDelay ∧
    (gameLoopStep exhaustSched SchedEvent.timerFires).1.nextTimer = some 45 := by
  have h := scheduler_rearm exhaustSched rfl rfl
  exact ⟨rfl, rfl, (h.1 true).1, (h.1 false).1, h.2.1⟩

end Trebek
